import Mathlib

/-!
Shallow embedding of the conversation/session-management core of the
nvidia-voice-agent repository (src/code/agent.py, src/code/conversation.py).

Python lists of `{"role": ..., "content": ...}` dicts become `List Msg`;
the remote LLM chat-completion call becomes an explicit capability
function `llm : List Msg → Option String` (`none` models the call
raising an exception, `some r` a reply with extracted text `r`); the
`Config.MAX_CONTEXT_TURNS` global read by `_trim_context` becomes the
`maxTurns` parameter.  Stateful methods are explicit state passing on
`AgentState` / `VCState`.
-/

/-- Message roles used in the Python dicts: "system", "user", "assistant". -/
inductive Role where
  | system
  | user
  | assistant
deriving DecidableEq, Repr

/-- One `{"role": r, "content": c}` dict. -/
structure Msg where
  role : Role
  content : String
deriving DecidableEq, Repr

/-- State of a `ConversationAgent` (agent.py, `__init__`): configuration
fields plus the mutable `conversation_history`.  `client` stands for the
opaque OpenAI client object, only tracked to state frame properties. -/
structure AgentState where
  api_key : String
  model : String
  system_prompt : String
  client : Nat
  conversation_history : List Msg
deriving DecidableEq, Repr

/-- Python slice `l[-k:]` for a nonnegative `k` (as it appears in
`_trim_context` with `k = MAX_CONTEXT_TURNS * 2`): for `k = 0` the slice
`l[-0:]` is `l[0:]`, the whole list; for `k > 0` it is the last
`min k (len l)` elements. -/
def pySliceLast (k : Nat) (l : List Msg) : List Msg :=
  if k = 0 then l else l.drop (l.length - k)

/-- `ConversationAgent._trim_context` (agent.py:54-63), with the global
`Config.MAX_CONTEXT_TURNS` made the explicit parameter `maxTurns`:
if `len(history) > maxTurns * 2`, keep `history[-(maxTurns * 2):]`. -/
def trimContext (maxTurns : Nat) (history : List Msg) : List Msg :=
  if history.length > maxTurns * 2 then pySliceLast (maxTurns * 2) history
  else history

/-- `ConversationAgent._build_messages` (agent.py:44-52): system prompt
followed by the conversation history. -/
def buildMessages (a : AgentState) : List Msg :=
  Msg.mk Role.system a.system_prompt :: a.conversation_history

/-- Internal steps of `respond`, in the order the source performs them,
used to state and settle ordering claims. -/
inductive Step where
  | appendUser
  | trim
  | buildRequest
  | callLLM
  | appendAssistant
deriving DecidableEq, Repr

/-- `ConversationAgent.respond` (agent.py:65-115).  Returns the Python
return value (`None` ↦ `none`), the post-state, and the trace of internal
steps in source order.  The guard `not user_input or not user_input.strip()`
holds exactly when every character of the input is whitespace (the empty
string included), written here as `userInput.data.all Char.isWhitespace`.
`llm` models `self.client.chat.completions.create` plus the
extraction `response.choices[0].message.content`: `none` when that raises,
`some reply` on success. -/
def respond (maxTurns : Nat) (llm : List Msg → Option String)
    (a : AgentState) (userInput : String) :
    Option String × AgentState × List Step :=
  if userInput.data.all Char.isWhitespace then (none, a, [])
  else
    let a1 := { a with
      conversation_history := a.conversation_history ++ [Msg.mk Role.user userInput] }
    let a2 := { a1 with
      conversation_history := trimContext maxTurns a1.conversation_history }
    let messages := buildMessages a2
    match llm messages with
    | none => (none, a2, [.appendUser, .trim, .buildRequest, .callLLM])
    | some reply =>
        (some reply,
         { a2 with
           conversation_history := a2.conversation_history ++ [Msg.mk Role.assistant reply] },
         [.appendUser, .trim, .buildRequest, .callLLM, .appendAssistant])

/-- `ConversationAgent.reset_conversation` (agent.py:117-120). -/
def reset_conversation (a : AgentState) : AgentState :=
  { a with conversation_history := [] }

/-- `ConversationAgent.get_turn_count` (agent.py:145-148): `len(history) // 2`. -/
def get_turn_count (a : AgentState) : Nat :=
  a.conversation_history.length / 2

/-- `AgentFactory.get_agent` (agent.py:156-169).  The class attribute
`_instance` is the explicit state `st : Option AgentState`; `construct`
models `ConversationAgent()` at this call site (`none` when the
constructor raises).  Returns (Python return value, new `_instance`). -/
def get_agent (construct : Option AgentState) (st : Option AgentState) :
    Option AgentState × Option AgentState :=
  match st with
  | some a => (some a, some a)
  | none =>
      match construct with
      | none => (none, none)
      | some a => (some a, some a)

/-- `AgentFactory.reset` (agent.py:171-175): if an instance exists, clear
its conversation history; otherwise do nothing. -/
def factory_reset (st : Option AgentState) : Option AgentState :=
  match st with
  | none => none
  | some a => some (reset_conversation a)

/-- State of a `VoiceConversation` (conversation.py): the owned agent and
the `conversation_count` counter.  The speech service is opaque; its calls
are passed in as capability results/functions. -/
structure VCState where
  agent : AgentState
  conversation_count : Nat
deriving Repr

/-- `VoiceConversation.process_audio_file` (conversation.py:62-107).
`fileExists` models `Path(audio_file).exists()`, `transcribe` the result of
`self.speech_service.transcribe(audio_file)` (`none` for Python `None`),
`synth` the function `r ↦ self.speech_service.synthesize(r, output_file)`
(`none` for `None`, `some bytes` otherwise; its result is only printed).
Python truthiness checks `if not transcript` / `if not response` fail on
both `None` and the empty string. -/
def process_audio_file (maxTurns : Nat) (llm : List Msg → Option String)
    (fileExists : Bool) (transcribe : Option String)
    (synth : String → Option (List Nat)) (st : VCState) : Bool × VCState :=
  if fileExists = false then (false, st)
  else
    match transcribe with
    | none => (false, st)
    | some transcript =>
        if transcript = "" then (false, st)
        else
          let r := respond maxTurns llm st.agent transcript
          let st1 : VCState := { st with agent := r.2.1 }
          match r.1 with
          | none => (false, st1)
          | some response =>
              if response = "" then (false, st1)
              else
                let _audio := synth response
                (true, { st1 with conversation_count := st1.conversation_count + 1 })

/-- `VoiceConversation.process_text_input` (conversation.py:109-136). -/
def process_text_input (maxTurns : Nat) (llm : List Msg → Option String)
    (synth : String → Option (List Nat)) (text : String) (st : VCState) :
    Bool × VCState :=
  let r := respond maxTurns llm st.agent text
  let st1 : VCState := { st with agent := r.2.1 }
  match r.1 with
  | none => (false, st1)
  | some response =>
      if response = "" then (false, st1)
      else
        let _audio := synth response
        (true, { st1 with conversation_count := st1.conversation_count + 1 })

/-- The 0-indexed user/assistant pairs `start, start+1, ..., start+n-1`,
each pair one USER and one ASSISTANT message whose contents carry the pair
index; used to state the concrete 20-pair trimming scenario. -/
def mkPairs (start n : Nat) : List Msg :=
  (List.range n).flatMap (fun i =>
    [Msg.mk Role.user ("u" ++ toString (start + i)),
     Msg.mk Role.assistant ("a" ++ toString (start + i))])

/-- The agent state right after `respond` has appended the USER turn and
trimmed, i.e. the state the LLM request is built from. -/
def afterUser (maxTurns : Nat) (a : AgentState) (u : String) : AgentState :=
  { a with conversation_history :=
      trimContext maxTurns (a.conversation_history ++ [Msg.mk Role.user u]) }

theorem respond_of_trim_eq (maxTurns : Nat) (llm : List Msg → Option String)
    (a : AgentState) (u : String) (hu : u.data.all Char.isWhitespace = true) :
    respond maxTurns llm a u = (none, a, []) := by
  simp [respond, hu]

theorem respond_of_trim_ne (maxTurns : Nat) (llm : List Msg → Option String)
    (a : AgentState) (u : String) (hu : ¬ u.data.all Char.isWhitespace = true) :
    respond maxTurns llm a u =
      match llm (buildMessages (afterUser maxTurns a u)) with
      | none => (none, afterUser maxTurns a u,
          [Step.appendUser, Step.trim, Step.buildRequest, Step.callLLM])
      | some reply =>
          (some reply,
           { afterUser maxTurns a u with conversation_history :=
               (afterUser maxTurns a u).conversation_history
                 ++ [Msg.mk Role.assistant reply] },
           [Step.appendUser, Step.trim, Step.buildRequest, Step.callLLM,
            Step.appendAssistant]) := by
  simp only [respond, if_neg hu, afterUser]

theorem trimContext_suffix (m : Nat) (h : List Msg) : trimContext m h <:+ h := by
  unfold trimContext pySliceLast
  split
  · split
    · exact List.suffix_refl h
    · exact List.drop_suffix _ h
  · exact List.suffix_refl h

theorem trimContext_of_le (m : Nat) (h : List Msg) (hle : h.length ≤ m * 2) :
    trimContext m h = h := by
  unfold trimContext
  rw [if_neg (by omega)]

theorem trimContext_length_le (m : Nat) (h : List Msg) (hm : 1 ≤ m) :
    (trimContext m h).length ≤ m * 2 := by
  unfold trimContext pySliceLast
  split
  · rw [if_neg (by omega), List.length_drop]
    omega
  · omega

theorem trimContext_length_of_gt (m : Nat) (h : List Msg) (hm : 1 ≤ m)
    (hgt : h.length > m * 2) : (trimContext m h).length = m * 2 := by
  unfold trimContext pySliceLast
  rw [if_pos hgt, if_neg (by omega), List.length_drop]
  omega

theorem trimContext_concat_getLast? (m : Nat) (l : List Msg) (x : Msg) :
    (trimContext m (l ++ [x])).getLast? = some x := by
  unfold trimContext pySliceLast
  split
  · split
    · exact List.getLast?_concat l
    · rw [List.drop_append_of_le_length (by simp at *; omega)]
      exact List.getLast?_concat _
  · exact List.getLast?_concat l

/-- Claim C7: for every agent state, `respond` on an empty or
whitespace-only input leaves the state unchanged, performs no internal
step (in particular no LLM call), and returns the "no response" signal
`none`. -/
theorem c7_respond_blank_noop (maxTurns : Nat) (llm : List Msg → Option String)
    (a : AgentState) (u : String) (hu : u.data.all Char.isWhitespace = true) :
    respond maxTurns llm a u = (none, a, []) := by
  simp [respond, hu]

/-- Witness for C7 at the concrete inputs `""` and `"   "`. -/
theorem c7_respond_blank_noop_witness :
    respond 10 (fun _ => some "r") ⟨"k", "m", "s", 0, []⟩ ""
      = (none, ⟨"k", "m", "s", 0, []⟩, []) ∧
    respond 10 (fun _ => some "r") ⟨"k", "m", "s", 0, []⟩ "   "
      = (none, ⟨"k", "m", "s", 0, []⟩, []) :=
  ⟨c7_respond_blank_noop 10 (fun _ => some "r") ⟨"k", "m", "s", 0, []⟩ "" (by decide),
   c7_respond_blank_noop 10 (fun _ => some "r") ⟨"k", "m", "s", 0, []⟩ "   " (by decide)⟩

/-- Counterexample to claim C5 as stated ("for every maxTurns"): with
`maxTurns = 0` the Python slice `history[-0:]` is the whole list, so a
one-element store is not trimmed and its length exceeds `2 × 0`. -/
theorem c5_trim_counterexample :
    trimContext 0 [Msg.mk Role.user "a"] = [Msg.mk Role.user "a"] ∧
    ¬ (trimContext 0 [Msg.mk Role.user "a"]).length ≤ 2 * 0 := by
  constructor
  · rfl
  · decide

/-- Claim C5 (amended to `maxTurns ≥ 1`): after `trim(maxTurns)` the
length is at most `2 × maxTurns`; when the pre-trim length exceeds the
bound, the result is exactly the most recent `2 × maxTurns` entries (the
drop of the oldest, hence a suffix in original order); trim is idempotent
once at/under the limit; and in the concrete 20-pair scenario with
`maxContextTurns = 10` exactly the pairs 10..19 remain. -/
theorem c5_trim_spec (maxTurns : Nat) (h : List Msg) (hm : 1 ≤ maxTurns) :
    (trimContext maxTurns h).length ≤ 2 * maxTurns ∧
    (h.length > 2 * maxTurns →
      trimContext maxTurns h = h.drop (h.length - 2 * maxTurns) ∧
      (trimContext maxTurns h).length = 2 * maxTurns) ∧
    trimContext maxTurns h <:+ h ∧
    trimContext maxTurns (trimContext maxTurns h) = trimContext maxTurns h ∧
    trimContext 10 (mkPairs 0 20) = mkPairs 10 10 := by
  refine ⟨?_, ?_, trimContext_suffix maxTurns h, ?_, ?_⟩
  · have := trimContext_length_le maxTurns h hm
    omega
  · intro hgt
    constructor
    · unfold trimContext pySliceLast
      rw [if_pos (by omega), if_neg (by omega)]
      congr 1
      omega
    · have := trimContext_length_of_gt maxTurns h hm (by omega)
      omega
  · apply trimContext_of_le
    exact trimContext_length_le maxTurns h hm
  · decide

/-- Witness for C5 at `maxTurns = 1` and a 3-element store. -/
theorem c5_trim_spec_witness :
    (trimContext 1 [Msg.mk Role.user "a", Msg.mk Role.assistant "b",
        Msg.mk Role.user "c"]).length ≤ 2 * 1 ∧
    ([Msg.mk Role.user "a", Msg.mk Role.assistant "b",
        Msg.mk Role.user "c"].length > 2 * 1 →
      trimContext 1 [Msg.mk Role.user "a", Msg.mk Role.assistant "b",
          Msg.mk Role.user "c"]
        = [Msg.mk Role.user "a", Msg.mk Role.assistant "b",
            Msg.mk Role.user "c"].drop
            ([Msg.mk Role.user "a", Msg.mk Role.assistant "b",
                Msg.mk Role.user "c"].length - 2 * 1) ∧
      (trimContext 1 [Msg.mk Role.user "a", Msg.mk Role.assistant "b",
          Msg.mk Role.user "c"]).length = 2 * 1) ∧
    trimContext 1 [Msg.mk Role.user "a", Msg.mk Role.assistant "b",
        Msg.mk Role.user "c"]
      <:+ [Msg.mk Role.user "a", Msg.mk Role.assistant "b", Msg.mk Role.user "c"] ∧
    trimContext 1 (trimContext 1 [Msg.mk Role.user "a", Msg.mk Role.assistant "b",
        Msg.mk Role.user "c"])
      = trimContext 1 [Msg.mk Role.user "a", Msg.mk Role.assistant "b",
          Msg.mk Role.user "c"] ∧
    trimContext 10 (mkPairs 0 20) = mkPairs 10 10 :=
  c5_trim_spec 1
    [Msg.mk Role.user "a", Msg.mk Role.assistant "b", Msg.mk Role.user "c"]
    (by decide)

/-- Counterexample to claim C4 as stated: the first construction fails,
yet the failure is not cached — the very next call re-attempts
construction and, when the constructor now succeeds, returns an agent
rather than surfacing "no agent". -/
theorem c4_get_agent_counterexample :
    get_agent none none = (none, none) ∧
    get_agent (some ⟨"k", "m", "s", 0, []⟩) (get_agent none none).2
      = (some ⟨"k", "m", "s", 0, []⟩, some ⟨"k", "m", "s", 0, []⟩) ∧
    ¬ (get_agent (some ⟨"k", "m", "s", 0, []⟩) (get_agent none none).2).1 = none := by
  refine ⟨rfl, rfl, by decide⟩

/-- Claim C4 (amended): `get_agent` lazily constructs the agent and, once
an instance exists, returns that same instance on every later call without
constructing again; a failed construction returns `none` ("no agent") for
that call but is NOT cached — the stored instance stays unset, so the next
call re-attempts construction (its outcome is exactly the outcome of the
constructor at that call). -/
theorem c4_get_agent_singleton (c : Option AgentState) (a : AgentState) :
    get_agent c (some a) = (some a, some a) ∧
    get_agent c none = (c, c) := by
  cases c <;> simp [get_agent]

/-- Claim C10: `AgentFactory.reset` with an existing instance empties that
instance's conversation history and changes nothing else — configuration
fields (api key, model, system prompt, client) are untouched and a
subsequent `get_agent` returns the retained (now history-cleared)
instance; with no instance, reset has no effect at all. -/
theorem c10_factory_reset_frame (a : AgentState) (c : Option AgentState) :
    factory_reset none = none ∧
    factory_reset (some a) = some (reset_conversation a) ∧
    (reset_conversation a).api_key = a.api_key ∧
    (reset_conversation a).model = a.model ∧
    (reset_conversation a).system_prompt = a.system_prompt ∧
    (reset_conversation a).client = a.client ∧
    (reset_conversation a).conversation_history = [] ∧
    get_agent c (factory_reset (some a))
      = (some (reset_conversation a), some (reset_conversation a)) := by
  refine ⟨rfl, rfl, rfl, rfl, rfl, rfl, rfl, ?_⟩
  simp [factory_reset, get_agent]

/-- Counterexample to claim C3 as stated: a failed exchange (LLM failure on
text input "hi") leaves `conversation_count` unchanged at 0, whereas the
claim demands it become 1. -/
theorem c3_exchange_count_counterexample :
    (process_text_input 10 (fun _ => none) (fun _ => none) "hi"
        ⟨⟨"k", "m", "s", 0, []⟩, 0⟩).1 = false ∧
    (process_text_input 10 (fun _ => none) (fun _ => none) "hi"
        ⟨⟨"k", "m", "s", 0, []⟩, 0⟩).2.conversation_count = 0 ∧
    ¬ (0 : Nat) = 0 + 1 := by
  refine ⟨rfl, rfl, by decide⟩

/-- Claim C3 (amended): the orchestrator's exchange counter is incremented
exactly once per successful exchange — for both per-exchange operations
(text input and audio file), the counter after the call is the counter
before plus 1 when the call reports success, and unchanged when the
exchange fails (file missing, transcription failure/empty, agent failure,
empty reply). -/
theorem c3_exchange_count_success_only (maxTurns : Nat)
    (llm : List Msg → Option String) (synth : String → Option (List Nat))
    (fe : Bool) (tr : Option String) (text : String) (st : VCState) :
    (process_text_input maxTurns llm synth text st).2.conversation_count
      = (if (process_text_input maxTurns llm synth text st).1
         then st.conversation_count + 1 else st.conversation_count) ∧
    (process_audio_file maxTurns llm fe tr synth st).2.conversation_count
      = (if (process_audio_file maxTurns llm fe tr synth st).1
         then st.conversation_count + 1 else st.conversation_count) := by
  constructor
  · simp only [process_text_input]
    cases hr : (respond maxTurns llm st.agent text).1 with
    | none => rfl
    | some response =>
        by_cases hre : response = "" <;> simp [hre]
  · simp only [process_audio_file]
    cases fe with
    | false => rfl
    | true =>
        rw [if_neg (by simp)]
        cases tr with
        | none => rfl
        | some transcript =>
            dsimp only []
            by_cases htr : transcript = ""
            · simp [htr]
            · rw [if_neg htr]
              cases hr : (respond maxTurns llm st.agent transcript).1 with
              | none => rfl
              | some response =>
                  by_cases hre : response = "" <;> simp [hre]

/-- Counterexample to claim C1 as stated: on a successful `respond` call
the internal step order is append-USER, TRIM, build, call, append-ASSISTANT
— the trim runs before the LLM call and the assistant append, not after
the assistant append as claimed. -/
theorem c1_respond_order_counterexample :
    (respond 10 (fun _ => some "r") ⟨"k", "m", "s", 0, []⟩ "hi").1 = some "r" ∧
    (respond 10 (fun _ => some "r") ⟨"k", "m", "s", 0, []⟩ "hi").2.2
      = [Step.appendUser, Step.trim, Step.buildRequest, Step.callLLM,
         Step.appendAssistant] ∧
    ¬ (respond 10 (fun _ => some "r") ⟨"k", "m", "s", 0, []⟩ "hi").2.2
      = [Step.appendUser, Step.buildRequest, Step.callLLM,
         Step.appendAssistant, Step.trim] := by
  refine ⟨rfl, rfl, by decide⟩

/-- Claim C1 (amended): in every successful `respond(userInput)` call, the
order of internal steps is append the USER turn, trim the store, build the
request, invoke the LLM, append the ASSISTANT turn; although the trim runs
before the assistant append, the freshly added user/assistant pair is
still never discarded by its own insertion — the post history is the trim
result (a suffix of the pre history plus the USER turn, so only entries
older than the window are removed) still ending in the fresh USER turn,
with the fresh ASSISTANT turn appended after it. -/
theorem c1_respond_order (maxTurns : Nat) (llm : List Msg → Option String)
    (a : AgentState) (u reply : String)
    (hs : (respond maxTurns llm a u).1 = some reply) :
    (respond maxTurns llm a u).2.2
      = [Step.appendUser, Step.trim, Step.buildRequest, Step.callLLM,
         Step.appendAssistant] ∧
    (respond maxTurns llm a u).2.1.conversation_history
      = trimContext maxTurns (a.conversation_history ++ [Msg.mk Role.user u])
          ++ [Msg.mk Role.assistant reply] ∧
    trimContext maxTurns (a.conversation_history ++ [Msg.mk Role.user u])
      <:+ a.conversation_history ++ [Msg.mk Role.user u] ∧
    (trimContext maxTurns (a.conversation_history ++ [Msg.mk Role.user u])).getLast?
      = some (Msg.mk Role.user u) := by
  by_cases hu : u.data.all Char.isWhitespace = true
  · rw [respond_of_trim_eq maxTurns llm a u hu] at hs
    simp at hs
  · rw [respond_of_trim_ne maxTurns llm a u hu] at hs ⊢
    cases hl : llm (buildMessages (afterUser maxTurns a u)) with
    | none =>
        rw [hl] at hs
        exact Option.noConfusion hs
    | some r =>
        rw [hl] at hs
        dsimp only [] at hs ⊢
        injection hs with hr
        subst hr
        refine ⟨rfl, ?_, trimContext_suffix _ _, trimContext_concat_getLast? _ _ _⟩
        simp [afterUser]

/-- Witness for C1: a concrete successful call. -/
theorem c1_respond_order_witness :
    (respond 10 (fun _ => some "r") ⟨"k", "m", "s", 0, []⟩ "hi").2.2
      = [Step.appendUser, Step.trim, Step.buildRequest, Step.callLLM,
         Step.appendAssistant] ∧
    (respond 10 (fun _ => some "r") ⟨"k", "m", "s", 0, []⟩ "hi").2.1.conversation_history
      = trimContext 10 ((⟨"k", "m", "s", 0, []⟩ : AgentState).conversation_history
            ++ [Msg.mk Role.user "hi"])
          ++ [Msg.mk Role.assistant "r"] ∧
    trimContext 10 ((⟨"k", "m", "s", 0, []⟩ : AgentState).conversation_history
        ++ [Msg.mk Role.user "hi"])
      <:+ (⟨"k", "m", "s", 0, []⟩ : AgentState).conversation_history
            ++ [Msg.mk Role.user "hi"] ∧
    (trimContext 10 ((⟨"k", "m", "s", 0, []⟩ : AgentState).conversation_history
        ++ [Msg.mk Role.user "hi"])).getLast?
      = some (Msg.mk Role.user "hi") :=
  c1_respond_order 10 (fun _ => some "r") ⟨"k", "m", "s", 0, []⟩ "hi" "r" rfl

/-- The length of the trimmed store in closed form. -/
theorem trimContext_length_eq (m : Nat) (h : List Msg) :
    (trimContext m h).length
      = if m * 2 < h.length ∧ 0 < m then m * 2 else h.length := by
  unfold trimContext pySliceLast
  by_cases h1 : h.length > m * 2
  · rw [if_pos h1]
    by_cases h2 : m * 2 = 0
    · rw [if_pos h2, if_neg (by omega)]
    · rw [if_neg h2, List.length_drop, if_pos (by omega)]
      omega
  · rw [if_neg h1, if_neg (by omega)]

/-- Counterexample to claim C2 as stated: with `maxContextTurns = 1` and a
full window (one stored pair), a successful `respond("x")` leaves
`get_turn_count` at 1 — it does not increase by 1, because the trim that
runs inside the call discards the oldest entry. -/
theorem c2_turncount_counterexample :
    (respond 1 (fun _ => some "r")
        ⟨"k", "m", "s", 0, [Msg.mk Role.user "p", Msg.mk Role.assistant "q"]⟩
        "x").1 = some "r" ∧
    get_turn_count
        ⟨"k", "m", "s", 0, [Msg.mk Role.user "p", Msg.mk Role.assistant "q"]⟩ = 1 ∧
    get_turn_count (respond 1 (fun _ => some "r")
        ⟨"k", "m", "s", 0, [Msg.mk Role.user "p", Msg.mk Role.assistant "q"]⟩
        "x").2.1 = 1 ∧
    ¬ (1 : Nat) = 1 + 1 := by
  refine ⟨rfl, rfl, rfl, by decide⟩

/-- Claim C2 (amended): after every successful `respond(x)` the last two
stored entries are the pair `{USER, x}` then `{ASSISTANT, reply}`; and
provided the pre-call stored length is below the window capacity
`2 × maxTurns` (so the in-call trim does not fire), `get_turn_count`
increases by exactly 1. -/
theorem c2_respond_success_spec (maxTurns : Nat) (llm : List Msg → Option String)
    (a : AgentState) (u reply : String)
    (hs : (respond maxTurns llm a u).1 = some reply) :
    ((respond maxTurns llm a u).2.1.conversation_history.getLast?
        = some (Msg.mk Role.assistant reply) ∧
     (respond maxTurns llm a u).2.1.conversation_history.dropLast.getLast?
        = some (Msg.mk Role.user u)) ∧
    (a.conversation_history.length + 1 ≤ maxTurns * 2 →
      get_turn_count (respond maxTurns llm a u).2.1 = get_turn_count a + 1) := by
  by_cases hu : u.data.all Char.isWhitespace = true
  · rw [respond_of_trim_eq maxTurns llm a u hu] at hs
    exact Option.noConfusion hs
  · rw [respond_of_trim_ne maxTurns llm a u hu] at hs ⊢
    cases hl : llm (buildMessages (afterUser maxTurns a u)) with
    | none =>
        rw [hl] at hs
        exact Option.noConfusion hs
    | some r =>
        rw [hl] at hs
        dsimp only [] at hs ⊢
        injection hs with hr
        subst hr
        refine ⟨⟨List.getLast?_concat _, ?_⟩, ?_⟩
        · rw [List.dropLast_concat]
          exact trimContext_concat_getLast? _ _ _
        · intro hle
          have htrim : trimContext maxTurns
              (a.conversation_history ++ [Msg.mk Role.user u])
              = a.conversation_history ++ [Msg.mk Role.user u] :=
            trimContext_of_le _ _ (by rw [List.length_append]; simpa using hle)
          simp [get_turn_count, afterUser, htrim]

/-- Witness for C2: a concrete successful call on an empty store. -/
theorem c2_respond_success_spec_witness :
    (respond 10 (fun _ => some "r") ⟨"k", "m", "s", 0, []⟩
        "hi").2.1.conversation_history.getLast?
      = some (Msg.mk Role.assistant "r") ∧
    get_turn_count (respond 10 (fun _ => some "r") ⟨"k", "m", "s", 0, []⟩ "hi").2.1
      = get_turn_count ⟨"k", "m", "s", 0, []⟩ + 1 :=
  ⟨(c2_respond_success_spec 10 (fun _ => some "r") ⟨"k", "m", "s", 0, []⟩
      "hi" "r" rfl).1.1,
   (c2_respond_success_spec 10 (fun _ => some "r") ⟨"k", "m", "s", 0, []⟩
      "hi" "r" rfl).2 (by decide)⟩

/-- Counterexample to claim C6 as stated ("for every agent state"): from a
state whose history is a single dangling USER turn (reachable through an
earlier failed call), a failed `respond("x")` changes `get_turn_count`
from 0 to 1 — the two dangling user turns now make an even-length
history. -/
theorem c6_failure_turncount_counterexample :
    (respond 10 (fun _ => none)
        ⟨"k", "m", "s", 0, [Msg.mk Role.user "a"]⟩ "x").1 = none ∧
    get_turn_count ⟨"k", "m", "s", 0, [Msg.mk Role.user "a"]⟩ = 0 ∧
    get_turn_count (respond 10 (fun _ => none)
        ⟨"k", "m", "s", 0, [Msg.mk Role.user "a"]⟩ "x").2.1 = 1 ∧
    ¬ (1 : Nat) = 0 := by
  refine ⟨rfl, rfl, rfl, by decide⟩

/-- Claim C6 (amended): if the LLM call inside `respond(x)` fails for a
non-blank `x`, then afterwards the USER turn for `x` is the last stored
entry (present, with no ASSISTANT turn after it), no assistant-append step
was performed, `respond` returned `none`; and provided the pre-call
history length was even and within the window bound `2 × maxTurns` (as in
every state with no dangling user turn), `get_turn_count` is unchanged. -/
theorem c6_respond_failure_spec (maxTurns : Nat) (llm : List Msg → Option String)
    (a : AgentState) (u : String)
    (hu : ¬ u.data.all Char.isWhitespace = true)
    (hf : (respond maxTurns llm a u).1 = none) :
    (respond maxTurns llm a u).2.1.conversation_history.getLast?
      = some (Msg.mk Role.user u) ∧
    (respond maxTurns llm a u).2.2
      = [Step.appendUser, Step.trim, Step.buildRequest, Step.callLLM] ∧
    (Even a.conversation_history.length →
      a.conversation_history.length ≤ maxTurns * 2 →
      get_turn_count (respond maxTurns llm a u).2.1 = get_turn_count a) := by
  rw [respond_of_trim_ne maxTurns llm a u hu] at hf ⊢
  cases hl : llm (buildMessages (afterUser maxTurns a u)) with
  | some r =>
      rw [hl] at hf
      exact Option.noConfusion hf
  | none =>
      dsimp only []
      refine ⟨trimContext_concat_getLast? _ _ _, rfl, ?_⟩
      intro hev hle
      obtain ⟨k, hk⟩ := hev
      simp only [get_turn_count, afterUser, trimContext_length_eq,
        List.length_append, List.length_cons, List.length_nil]
      by_cases hc : maxTurns * 2 < a.conversation_history.length + 1 ∧ 0 < maxTurns
      · rw [if_pos hc]
        omega
      · rw [if_neg hc]
        omega

/-- Witness for C6: a concrete failed call on an empty (even-length)
store. -/
theorem c6_respond_failure_spec_witness :
    (respond 10 (fun _ => none) ⟨"k", "m", "s", 0, []⟩
        "x").2.1.conversation_history.getLast?
      = some (Msg.mk Role.user "x") ∧
    get_turn_count (respond 10 (fun _ => none) ⟨"k", "m", "s", 0, []⟩ "x").2.1
      = get_turn_count ⟨"k", "m", "s", 0, []⟩ :=
  ⟨(c6_respond_failure_spec 10 (fun _ => none) ⟨"k", "m", "s", 0, []⟩ "x"
      (by decide) rfl).1,
   (c6_respond_failure_spec 10 (fun _ => none) ⟨"k", "m", "s", 0, []⟩ "x"
      (by decide) rfl).2.2 ⟨0, rfl⟩ (by decide)⟩

/-- Claim C9: for an agent with max context turns `N ≥ 1` whose stored
history length is within `2N + 1`, after any `respond` call (success, LLM
failure, or blank-input rejection) the stored length is again at most
`2N + 1`; and the bound is tight — a concrete run with `N = 1` (a success
on a full window) ends with length exactly `2N + 1`, one more than the
documented window bound `2N`, because the trim runs between the user
append and the assistant append. -/
theorem c9_history_bound (maxTurns : Nat) (llm : List Msg → Option String)
    (a : AgentState) (u : String) (hm : 1 ≤ maxTurns)
    (hlen : a.conversation_history.length ≤ maxTurns * 2 + 1) :
    (respond maxTurns llm a u).2.1.conversation_history.length
      ≤ maxTurns * 2 + 1 ∧
    (respond 1 (fun _ => some "B")
        (respond 1 (fun _ => some "A") ⟨"k", "m", "s", 0, []⟩ "x").2.1
        "y").2.1.conversation_history.length = 1 * 2 + 1 := by
  refine ⟨?_, by decide⟩
  by_cases hu : u.data.all Char.isWhitespace = true
  · rw [respond_of_trim_eq maxTurns llm a u hu]
    exact hlen
  · rw [respond_of_trim_ne maxTurns llm a u hu]
    have hb := trimContext_length_le maxTurns
      (a.conversation_history ++ [Msg.mk Role.user u]) hm
    cases hl : llm (buildMessages (afterUser maxTurns a u)) with
    | none =>
        dsimp only []
        simp only [afterUser]
        omega
    | some r =>
        dsimp only []
        simp only [afterUser, List.length_append, List.length_cons,
          List.length_nil]
        omega

/-- Witness for C9: the bound holds at a concrete successful call, and the
concrete `N = 1` run attains length `2N + 1 = 3`. -/
theorem c9_history_bound_witness :
    (respond 10 (fun _ => some "r") ⟨"k", "m", "s", 0, []⟩
        "hi").2.1.conversation_history.length ≤ 10 * 2 + 1 ∧
    (respond 1 (fun _ => some "B")
        (respond 1 (fun _ => some "A") ⟨"k", "m", "s", 0, []⟩ "x").2.1
        "y").2.1.conversation_history.length = 1 * 2 + 1 :=
  c9_history_bound 10 (fun _ => some "r") ⟨"k", "m", "s", 0, []⟩ "hi"
    (by decide) (by decide)

/-- Claim C8: when the file exists, transcription succeeds (non-empty),
and the agent reply succeeds (non-empty), but synthesis of the reply
audio fails, the exchange is still reported successful and the exchange
counter is still incremented — for both the audio-file and the text-input
operations. -/
theorem c8_synthesis_failure_partial_success (maxTurns : Nat)
    (llm : List Msg → Option String) (synth : String → Option (List Nat))
    (st : VCState) (transcript reply : String)
    (ht : ¬ transcript = "")
    (hr : (respond maxTurns llm st.agent transcript).1 = some reply)
    (hre : ¬ reply = "")
    (hsynth : synth reply = none) :
    (process_audio_file maxTurns llm true (some transcript) synth st).1 = true ∧
    (process_audio_file maxTurns llm true (some transcript) synth
        st).2.conversation_count = st.conversation_count + 1 ∧
    (process_text_input maxTurns llm synth transcript st).1 = true ∧
    (process_text_input maxTurns llm synth transcript
        st).2.conversation_count = st.conversation_count + 1 := by
  simp only [process_audio_file, process_text_input]
  rw [if_neg (by simp)]
  rw [if_neg ht, hr]
  dsimp only []
  rw [if_neg hre]
  exact ⟨rfl, rfl, rfl, rfl⟩

/-- Witness for C8: a concrete exchange in which transcription and the
reply succeed and synthesis fails. -/
theorem c8_synthesis_failure_partial_success_witness :
    (process_audio_file 10 (fun _ => some "ok") true (some "hi")
        (fun _ => none) ⟨⟨"k", "m", "s", 0, []⟩, 5⟩).1 = true ∧
    (process_audio_file 10 (fun _ => some "ok") true (some "hi")
        (fun _ => none) ⟨⟨"k", "m", "s", 0, []⟩, 5⟩).2.conversation_count
      = (⟨⟨"k", "m", "s", 0, []⟩, 5⟩ : VCState).conversation_count + 1 ∧
    (process_text_input 10 (fun _ => some "ok") (fun _ => none) "hi"
        ⟨⟨"k", "m", "s", 0, []⟩, 5⟩).1 = true ∧
    (process_text_input 10 (fun _ => some "ok") (fun _ => none) "hi"
        ⟨⟨"k", "m", "s", 0, []⟩, 5⟩).2.conversation_count
      = (⟨⟨"k", "m", "s", 0, []⟩, 5⟩ : VCState).conversation_count + 1 :=
  c8_synthesis_failure_partial_success 10 (fun _ => some "ok") (fun _ => none)
    ⟨⟨"k", "m", "s", 0, []⟩, 5⟩ "hi" "ok" (by decide) rfl (by decide) rfl
